import Mathlib

/-!
Shallow embedding of the `password_tool` repository (files
`src/password_tool/generator.py` and `src/password_tool/checker.py`).

Randomness is modelled by an oracle `g : Nat → Nat` supplying one natural
number per draw of the secure random source: `secrets.choice(s)` with oracle
value `k` returns `s[k % len(s)]`, and `secrets.randbelow(n)` with oracle
value `k` returns `k % n`.  All properties are quantified over the oracle.

Python `float` arithmetic (`math.log2`, weighted scores) is modelled over
`ℝ`/`ℚ`; Unicode character classification (`str.isupper` etc.) is modelled
by the ASCII-range checks, matching the fixed 26/26/10 class sizes used by
the code.
-/

namespace PasswordTool

/-- Source constant `string.ascii_lowercase`. -/
def LOWERCASE : List Char := "abcdefghijklmnopqrstuvwxyz".toList

/-- Source constant `string.ascii_uppercase`. -/
def UPPERCASE : List Char := "ABCDEFGHIJKLMNOPQRSTUVWXYZ".toList

/-- Source constant `string.digits`. -/
def DIGITS : List Char := "0123456789".toList

/-- Source constant `PasswordGenerator.SPECIAL` (the literal 29-character string). -/
def SPECIAL : List Char := "!@#$%^&*()_+-=[]\x7b\x7d|;:\x27,<>?/.~".toList

/-- Source constant `PasswordGenerator.AMBIGUOUS`. -/
def AMBIGUOUS : List Char := "0O1lI|\x60".toList

/-- Model of `secrets.choice(l)` with oracle value `k`. -/
def choice (l : List Char) (k : Nat) : Char := l.getD (k % l.length) '?'

/-- Source `PasswordGenerator._remove_ambiguous`. -/
def remove_ambiguous (cs : List Char) : List Char :=
  cs.filter (fun c => !(AMBIGUOUS.contains c))

/-- Model of the body of one Fisher-Yates iteration:
`shuffled[i], shuffled[j] = shuffled[j], shuffled[i]`. -/
def list_swap {α : Type} (l : List α) (i j : Nat) : List α :=
  match l[i]?, l[j]? with
  | some a, some b => (l.set i b).set j a
  | _, _ => l

/-- Model of the loop of `PasswordGenerator._shuffle_list`
(`for i in range(n - 1, 0, -1)`), counting down from `i`. -/
def fy_aux {α : Type} (g : Nat → Nat) : Nat → List α → List α
  | 0, l => l
  | i + 1, l => fy_aux g i (list_swap l (i + 1) (g (i + 1) % (i + 2)))

/-- Source `PasswordGenerator._shuffle_list` with random oracle `g`. -/
def shuffle_list {α : Type} (g : Nat → Nat) (l : List α) : List α :=
  fy_aux g (l.length - 1) l

/-- Source enum `PasswordStrength`. -/
inductive PasswordStrength : Type
  | WEAK
  | MEDIUM
  | STRONG
  | VERY_STRONG
deriving DecidableEq

/-- Source `PasswordGenerator._generate_weak`. -/
def generate_weak (g : Nat → Nat) (length : Nat) : List Char :=
  let charset := LOWERCASE ++ UPPERCASE ++ DIGITS
  (List.range length).map (fun i => choice charset (g i))

/-- Source `PasswordGenerator._generate_medium`. -/
def generate_medium (g : Nat → Nat) (length : Nat)
    (include_special exclude_ambiguous : Bool) : List Char :=
  let charset0 := (LOWERCASE ++ UPPERCASE ++ DIGITS) ++
    (if include_special then SPECIAL else [])
  let charset := if exclude_ambiguous then remove_ambiguous charset0 else charset0
  let required := [choice UPPERCASE (g 0), choice LOWERCASE (g 1), choice DIGITS (g 2)] ++
    (if include_special ∧ 0 < SPECIAL.length then [choice SPECIAL (g 3)] else [])
  let remaining := length - required.length
  let fill := (List.range remaining).map (fun i => choice charset (g (4 + i)))
  shuffle_list (fun i => g (4 + remaining + i)) (required ++ fill)

/-- Source `PasswordGenerator._generate_strong`.  The `include_special`
parameter exists in the source signature but is unused by its body. -/
def generate_strong (g : Nat → Nat) (length : Nat)
    (_include_special exclude_ambiguous : Bool) : List Char :=
  let charset0 := LOWERCASE ++ UPPERCASE ++ DIGITS ++ SPECIAL
  let charset := if exclude_ambiguous then remove_ambiguous charset0 else charset0
  let required := [choice UPPERCASE (g 0), choice LOWERCASE (g 1),
    choice DIGITS (g 2), choice SPECIAL (g 3)]
  let remaining := length - required.length
  let fill := (List.range remaining).map (fun i => choice charset (g (4 + i)))
  shuffle_list (fun i => g (4 + remaining + i)) (required ++ fill)

/-- Source `PasswordGenerator._generate_very_strong`. -/
def generate_very_strong (g : Nat → Nat) (length : Nat)
    (exclude_ambiguous : Bool) : List Char :=
  let charset0 := LOWERCASE ++ UPPERCASE ++ DIGITS ++ SPECIAL
  let charset := if exclude_ambiguous then remove_ambiguous charset0 else charset0
  let required := [choice UPPERCASE (g 0), choice UPPERCASE (g 1),
    choice LOWERCASE (g 2), choice LOWERCASE (g 3),
    choice DIGITS (g 4), choice DIGITS (g 5),
    choice SPECIAL (g 6), choice SPECIAL (g 7)]
  let remaining := length - required.length
  let fill := (List.range remaining).map (fun i => choice charset (g (8 + i)))
  shuffle_list (fun i => g (8 + remaining + i)) (required ++ fill)

/-- Source local `consonants` of `_generate_readable_password`. -/
def consonants : List Char := "bcdfghjklmnprstvwxyz".toList

/-- Source local `vowels` of `_generate_readable_password`. -/
def vowels : List Char := "aeiou".toList

/-- Character placed at position `i` by the consonant/vowel alternation loop
of `_generate_readable_password` (`is_consonant` starts `True` and toggles,
so position `i` is a consonant iff `i` is even; a consonant at a position
with `i % 5 == 0` is drawn from the uppercased consonant string). -/
def readable_letter (g : Nat → Nat) (i : Nat) : Char :=
  if i % 2 = 0 then
    choice (if i % 5 = 0 then consonants.map Char.toUpper else consonants) (g i)
  else
    choice vowels (g i)

/-- Source `PasswordGenerator._generate_readable_password`.  The two
`secrets.randbelow(length - 2)` draws use oracle values `g length` and
`g (length + 1)`; the digit and special replacement characters use
`g (length + 2)` and `g (length + 3)`. -/
def generate_readable_password (g : Nat → Nat) (length : Nat)
    (include_special : Bool) : List Char :=
  let base := (List.range length).map (readable_letter g)
  if include_special ∧ 12 ≤ length then
    let idx1 := g length % (length - 2)
    let idx2 := g (length + 1) % (length - 2)
    (base.set idx1 (choice DIGITS (g (length + 2)))).set idx2
      (choice SPECIAL (g (length + 3)))
  else base

/-- Source `PasswordGenerator.generate_password`; the `raise ValueError` is
modelled as `Except.error` with the source's message. -/
def generate_password (g : Nat → Nat) (length : Nat) (strength : PasswordStrength)
    (include_special exclude_ambiguous readable : Bool) : Except String (List Char) :=
  if length < 8 then
    .error "Password length must be at least 8 characters"
  else
    .ok (if readable then generate_readable_password g length include_special
      else match strength with
        | .WEAK => generate_weak g length
        | .MEDIUM => generate_medium g length include_special exclude_ambiguous
        | .STRONG => generate_strong g length include_special exclude_ambiguous
        | .VERY_STRONG => generate_very_strong g length exclude_ambiguous)

/-- Source `PasswordGenerator.get_charset_size`.  The special-class summand is
the length of the source's inline string literal (identical to `SPECIAL`), and
the ambiguous subtrahend is the length of the inline `"0O1lI|` + backtick
literal (identical to `AMBIGUOUS`). -/
def get_charset_size (include_uppercase include_lowercase include_digits
    include_special exclude_ambiguous : Bool) : Int :=
  (if include_uppercase then (26 : Int) else 0) +
  (if include_lowercase then (26 : Int) else 0) +
  (if include_digits then (10 : Int) else 0) +
  (if include_special then (SPECIAL.length : Int) else 0) -
  (if exclude_ambiguous then (AMBIGUOUS.length : Int) else 0)

/-- Source `PasswordGenerator.calculate_entropy` (float arithmetic over `ℝ`). -/
noncomputable def calculate_entropy (password_length : Nat) (charset_size : Int) : ℝ :=
  if charset_size ≤ 1 ∨ password_length = 0 then 0
  else (password_length : ℝ) * Real.logb 2 (charset_size : ℝ)

/-! ### Helper lemmas about the random-choice and shuffle primitives -/

theorem choice_mem {l : List Char} (h : l ≠ []) (k : Nat) : choice l k ∈ l := by
  have hlen : 0 < l.length := List.length_pos.mpr h
  have hk : k % l.length < l.length := Nat.mod_lt _ hlen
  have : choice l k = l[k % l.length] := by
    simp [choice, List.getD_eq_getElem?_getD, List.getElem?_eq_getElem hk]
  rw [this]
  exact List.getElem_mem hk

theorem set_perm_cons {α : Type} (a b : α) :
    ∀ (l : List α) (m : Nat), l[m]? = some b → List.Perm (b :: l.set m a) (a :: l)
  | [], m, h => by simp at h
  | c :: t, 0, h => by
    simp only [List.getElem?_cons_zero, Option.some.injEq] at h
    subst h
    simpa using List.Perm.swap a c t
  | c :: t, m + 1, h => by
    simp only [List.getElem?_cons_succ] at h
    have ih := set_perm_cons a b t m h
    have h1 : List.Perm (b :: c :: t.set m a) (c :: b :: t.set m a) :=
      List.Perm.swap c b _
    have h2 : List.Perm (c :: b :: t.set m a) (c :: a :: t) := ih.cons c
    have h3 : List.Perm (c :: a :: t) (a :: c :: t) := List.Perm.swap a c t
    simpa using (h1.trans h2).trans h3

theorem set_set_perm {α : Type} :
    ∀ (l : List α) (i j : Nat) (a b : α), l[i]? = some a → l[j]? = some b →
      List.Perm ((l.set i b).set j a) l
  | [], _, _, _, _, hi, _ => by simp at hi
  | c :: t, 0, 0, a, b, hi, hj => by
    simp only [List.getElem?_cons_zero, Option.some.injEq] at hi hj
    subst hi; subst hj
    simp
  | c :: t, 0, j + 1, a, b, hi, hj => by
    simp only [List.getElem?_cons_zero, List.getElem?_cons_succ,
      Option.some.injEq] at hi hj
    subst hi
    simpa using set_perm_cons c b t j hj
  | c :: t, i + 1, 0, a, b, hi, hj => by
    simp only [List.getElem?_cons_zero, List.getElem?_cons_succ,
      Option.some.injEq] at hi hj
    subst hj
    simpa using set_perm_cons c a t i hi
  | c :: t, i + 1, j + 1, a, b, hi, hj => by
    simp only [List.getElem?_cons_succ] at hi hj
    have ih := set_set_perm t i j a b hi hj
    simpa using ih.cons c

theorem list_swap_perm {α : Type} (l : List α) (i j : Nat) :
    List.Perm (list_swap l i j) l := by
  unfold list_swap
  rcases hi : l[i]? with _ | a
  · simp
  · rcases hj : l[j]? with _ | b
    · simp
    · exact set_set_perm l i j a b hi hj

theorem fy_aux_perm {α : Type} (g : Nat → Nat) :
    ∀ (i : Nat) (l : List α), List.Perm (fy_aux g i l) l
  | 0, l => List.Perm.refl l
  | i + 1, l =>
    (fy_aux_perm g i (list_swap l (i + 1) (g (i + 1) % (i + 2)))).trans
      (list_swap_perm l (i + 1) (g (i + 1) % (i + 2)))

theorem shuffle_list_perm {α : Type} (g : Nat → Nat) (l : List α) :
    List.Perm (shuffle_list g l) l :=
  fy_aux_perm g (l.length - 1) l

/-! ### Character-class counting helpers for the generation invariants -/

/-- Number of characters of `l` that belong to the class catalog `cls`. -/
def class_count (l cls : List Char) : Nat := l.countP (fun c => cls.contains c)

/-- Number of ambiguous characters (members of `AMBIGUOUS`) in `l`. -/
def ambiguous_count (l : List Char) : Nat := l.countP (fun c => AMBIGUOUS.contains c)

/-- Permitted character pool of a MEDIUM policy (the union the source builds
as `charset` before the optional ambiguity filtering). -/
def permitted_medium (include_special : Bool) : List Char :=
  (LOWERCASE ++ UPPERCASE ++ DIGITS) ++ (if include_special then SPECIAL else [])

/-- Permitted character pool of a STRONG or VERY_STRONG policy. -/
def permitted_full : List Char := LOWERCASE ++ UPPERCASE ++ DIGITS ++ SPECIAL

theorem contains_of_mem {c : Char} {l : List Char} (h : c ∈ l) :
    l.contains c = true := by
  simpa [List.contains] using h

theorem class_count_le_of_perm {l₁ l₂ cls : List Char} (h : List.Perm l₁ l₂) :
    class_count l₁ cls = class_count l₂ cls :=
  h.countP_eq _

/-- Core composition lemma shared by the three guaranteed-composition
generators: shuffling `required ++ fill` yields a list whose length adds up,
whose members come from `required` or the unfiltered pool, whose class counts
dominate those of `required`, and whose ambiguous characters can only come
from `required` when the fill pool was ambiguity-filtered. -/
theorem gen_core (g' : Nat → Nat) (required fill charset0 : List Char) (ea : Bool)
    (hfill : ∀ c ∈ fill, c ∈ (if ea then remove_ambiguous charset0 else charset0)) :
    (shuffle_list g' (required ++ fill)).length = required.length + fill.length ∧
    (∀ c ∈ shuffle_list g' (required ++ fill), c ∈ required ∨ c ∈ charset0) ∧
    (∀ cls : List Char,
      class_count required cls ≤ class_count (shuffle_list g' (required ++ fill)) cls) ∧
    (ea = true → ambiguous_count (shuffle_list g' (required ++ fill)) ≤ required.length) := by
  have perm := shuffle_list_perm g' (required ++ fill)
  have hfill' : ∀ c ∈ fill, c ∈ charset0 := by
    intro c hc
    have := hfill c hc
    cases ea with
    | false => simpa using this
    | true =>
      simp only [if_pos rfl] at this
      exact (List.mem_filter.mp this).1
  refine ⟨?_, ?_, ?_, ?_⟩
  · rw [perm.length_eq, List.length_append]
  · intro c hc
    rcases List.mem_append.mp (perm.mem_iff.mp hc) with h | h
    · exact Or.inl h
    · exact Or.inr (hfill' c h)
  · intro cls
    rw [class_count_le_of_perm perm]
    simp only [class_count, List.countP_append]
    exact Nat.le_add_right _ _
  · intro hea
    subst hea
    have hfill2 : ∀ c ∈ fill, c ∈ remove_ambiguous charset0 := by
      simpa using hfill
    have hz : fill.countP (fun c => AMBIGUOUS.contains c) = 0 := by
      rw [List.countP_eq_zero]
      intro c hc
      have h2 := hfill2 c hc
      rw [remove_ambiguous, List.mem_filter] at h2
      simpa using h2.2
    calc ambiguous_count (shuffle_list g' (required ++ fill))
        = (required ++ fill).countP (fun c => AMBIGUOUS.contains c) :=
          perm.countP_eq _
      _ = required.countP (fun c => AMBIGUOUS.contains c) := by
          rw [List.countP_append, hz, Nat.add_zero]
      _ ≤ required.length := List.countP_le_length _

/-- The fill list of each generator only contains characters of the pool it
draws from, provided the pool is non-empty. -/
theorem fill_mem {cs : List Char} (hcs : cs ≠ []) (h : Nat → Nat) (n : Nat) :
    ∀ c ∈ (List.range n).map (fun i => choice cs (h i)), c ∈ cs := by
  intro c hc
  rcases List.mem_map.mp hc with ⟨i, _, rfl⟩
  exact choice_mem hcs _

theorem class_count_append (l₁ l₂ cls : List Char) :
    class_count (l₁ ++ l₂) cls = class_count l₁ cls + class_count l₂ cls := by
  simp [class_count]

theorem one_le_class_count_of_mem {x : Char} {l cls : List Char}
    (hx : x ∈ l) (hc : x ∈ cls) : 1 ≤ class_count l cls :=
  List.countP_pos_iff.mpr ⟨x, hx, contains_of_mem hc⟩

theorem mem_permitted_medium (is : Bool) {c : Char}
    (h : c ∈ LOWERCASE ∨ c ∈ UPPERCASE ∨ c ∈ DIGITS) : c ∈ permitted_medium is := by
  cases is <;> (simp only [permitted_medium, List.mem_append]; tauto)

theorem mem_permitted_medium_special {c : Char} (h : c ∈ SPECIAL) :
    c ∈ permitted_medium true := by
  simp only [permitted_medium, List.mem_append]
  tauto

theorem mem_permitted_full {c : Char}
    (h : c ∈ LOWERCASE ∨ c ∈ UPPERCASE ∨ c ∈ DIGITS ∨ c ∈ SPECIAL) :
    c ∈ permitted_full := by
  simp only [permitted_full, List.mem_append]
  tauto

/-- Composition facts for `_generate_medium` (used by the C1 theorem). -/
theorem medium_composition (g : Nat → Nat) (L : Nat) (is ea : Bool) (hL : 8 ≤ L) :
    (generate_medium g L is ea).length = L ∧
    (∀ c ∈ generate_medium g L is ea, c ∈ permitted_medium is) ∧
    1 ≤ class_count (generate_medium g L is ea) UPPERCASE ∧
    1 ≤ class_count (generate_medium g L is ea) LOWERCASE ∧
    1 ≤ class_count (generate_medium g L is ea) DIGITS ∧
    (is = true → 1 ≤ class_count (generate_medium g L is ea) SPECIAL) ∧
    (ea = true →
      ambiguous_count (generate_medium g L is ea) ≤ if is = true then 4 else 3) := by
  cases is with
  | true =>
    have hdef : generate_medium g L true ea =
        shuffle_list (fun i => g (4 + (L - 4) + i))
          ([choice UPPERCASE (g 0), choice LOWERCASE (g 1), choice DIGITS (g 2),
            choice SPECIAL (g 3)] ++
           (List.range (L - 4)).map
             (fun i => choice (if ea then remove_ambiguous (permitted_medium true)
               else permitted_medium true) (g (4 + i)))) := rfl
    rw [hdef]
    have hne : (if ea then remove_ambiguous (permitted_medium true)
        else permitted_medium true) ≠ [] := by cases ea <;> decide
    obtain ⟨hlen, hmem, hcount, hamb⟩ :=
      gen_core (fun i => g (4 + (L - 4) + i)) _ _ (permitted_medium true) ea
        (fill_mem hne _ _)
    refine ⟨?_, ?_, ?_, ?_, ?_, fun _ => ?_, fun hea => ?_⟩
    · rw [hlen]; simp; omega
    · intro c hc
      rcases hmem c hc with h | h
      · rcases (by simpa using h : c = choice UPPERCASE (g 0) ∨
          c = choice LOWERCASE (g 1) ∨ c = choice DIGITS (g 2) ∨
          c = choice SPECIAL (g 3)) with rfl | rfl | rfl | rfl
        · exact mem_permitted_medium true (Or.inr (Or.inl (choice_mem (by decide) _)))
        · exact mem_permitted_medium true (Or.inl (choice_mem (by decide) _))
        · exact mem_permitted_medium true (Or.inr (Or.inr (choice_mem (by decide) _)))
        · exact mem_permitted_medium_special (choice_mem (by decide) _)
      · exact h
    · exact le_trans
        (one_le_class_count_of_mem (by simp) (choice_mem (l := UPPERCASE) (by decide) (g 0)))
        (hcount UPPERCASE)
    · exact le_trans
        (one_le_class_count_of_mem (by simp) (choice_mem (l := LOWERCASE) (by decide) (g 1)))
        (hcount LOWERCASE)
    · exact le_trans
        (one_le_class_count_of_mem (by simp) (choice_mem (l := DIGITS) (by decide) (g 2)))
        (hcount DIGITS)
    · exact le_trans
        (one_le_class_count_of_mem (by simp) (choice_mem (l := SPECIAL) (by decide) (g 3)))
        (hcount SPECIAL)
    · simpa using hamb hea
  | false =>
    have hdef : generate_medium g L false ea =
        shuffle_list (fun i => g (4 + (L - 3) + i))
          ([choice UPPERCASE (g 0), choice LOWERCASE (g 1), choice DIGITS (g 2)] ++
           (List.range (L - 3)).map
             (fun i => choice (if ea then remove_ambiguous (permitted_medium false)
               else permitted_medium false) (g (4 + i)))) := rfl
    rw [hdef]
    have hne : (if ea then remove_ambiguous (permitted_medium false)
        else permitted_medium false) ≠ [] := by cases ea <;> decide
    obtain ⟨hlen, hmem, hcount, hamb⟩ :=
      gen_core (fun i => g (4 + (L - 3) + i)) _ _ (permitted_medium false) ea
        (fill_mem hne _ _)
    refine ⟨?_, ?_, ?_, ?_, ?_, fun h => by simp at h, fun hea => ?_⟩
    · rw [hlen]; simp; omega
    · intro c hc
      rcases hmem c hc with h | h
      · rcases (by simpa using h : c = choice UPPERCASE (g 0) ∨
          c = choice LOWERCASE (g 1) ∨ c = choice DIGITS (g 2)) with rfl | rfl | rfl
        · exact mem_permitted_medium false (Or.inr (Or.inl (choice_mem (by decide) _)))
        · exact mem_permitted_medium false (Or.inl (choice_mem (by decide) _))
        · exact mem_permitted_medium false (Or.inr (Or.inr (choice_mem (by decide) _)))
      · exact h
    · exact le_trans
        (one_le_class_count_of_mem (by simp) (choice_mem (l := UPPERCASE) (by decide) (g 0)))
        (hcount UPPERCASE)
    · exact le_trans
        (one_le_class_count_of_mem (by simp) (choice_mem (l := LOWERCASE) (by decide) (g 1)))
        (hcount LOWERCASE)
    · exact le_trans
        (one_le_class_count_of_mem (by simp) (choice_mem (l := DIGITS) (by decide) (g 2)))
        (hcount DIGITS)
    · simpa using hamb hea

/-- Composition facts for `_generate_strong` (used by the C1 theorem). -/
theorem strong_composition (g : Nat → Nat) (L : Nat) (is ea : Bool) (hL : 8 ≤ L) :
    (generate_strong g L is ea).length = L ∧
    (∀ c ∈ generate_strong g L is ea, c ∈ permitted_full) ∧
    1 ≤ class_count (generate_strong g L is ea) UPPERCASE ∧
    1 ≤ class_count (generate_strong g L is ea) LOWERCASE ∧
    1 ≤ class_count (generate_strong g L is ea) DIGITS ∧
    1 ≤ class_count (generate_strong g L is ea) SPECIAL ∧
    (ea = true → ambiguous_count (generate_strong g L is ea) ≤ 4) := by
  have hdef : generate_strong g L is ea =
      shuffle_list (fun i => g (4 + (L - 4) + i))
        ([choice UPPERCASE (g 0), choice LOWERCASE (g 1), choice DIGITS (g 2),
          choice SPECIAL (g 3)] ++
         (List.range (L - 4)).map
           (fun i => choice (if ea then remove_ambiguous permitted_full
             else permitted_full) (g (4 + i)))) := rfl
  rw [hdef]
  have hne : (if ea then remove_ambiguous permitted_full else permitted_full) ≠ [] := by
    cases ea <;> decide
  obtain ⟨hlen, hmem, hcount, hamb⟩ :=
    gen_core (fun i => g (4 + (L - 4) + i)) _ _ permitted_full ea (fill_mem hne _ _)
  refine ⟨?_, ?_, ?_, ?_, ?_, ?_, fun hea => ?_⟩
  · rw [hlen]; simp; omega
  · intro c hc
    rcases hmem c hc with h | h
    · rcases (by simpa using h : c = choice UPPERCASE (g 0) ∨
        c = choice LOWERCASE (g 1) ∨ c = choice DIGITS (g 2) ∨
        c = choice SPECIAL (g 3)) with rfl | rfl | rfl | rfl
      · exact mem_permitted_full (Or.inr (Or.inl (choice_mem (by decide) _)))
      · exact mem_permitted_full (Or.inl (choice_mem (by decide) _))
      · exact mem_permitted_full (Or.inr (Or.inr (Or.inl (choice_mem (by decide) _))))
      · exact mem_permitted_full (Or.inr (Or.inr (Or.inr (choice_mem (by decide) _))))
    · exact h
  · exact le_trans
      (one_le_class_count_of_mem (by simp) (choice_mem (l := UPPERCASE) (by decide) (g 0)))
      (hcount UPPERCASE)
  · exact le_trans
      (one_le_class_count_of_mem (by simp) (choice_mem (l := LOWERCASE) (by decide) (g 1)))
      (hcount LOWERCASE)
  · exact le_trans
      (one_le_class_count_of_mem (by simp) (choice_mem (l := DIGITS) (by decide) (g 2)))
      (hcount DIGITS)
  · exact le_trans
      (one_le_class_count_of_mem (by simp) (choice_mem (l := SPECIAL) (by decide) (g 3)))
      (hcount SPECIAL)
  · simpa using hamb hea

theorem class_count_pair {c₁ c₂ : Char} {cls : List Char}
    (h₁ : c₁ ∈ cls) (h₂ : c₂ ∈ cls) : class_count [c₁, c₂] cls = 2 := by
  simp [class_count, List.countP_cons, h₁, h₂]

/-- Composition facts for `_generate_very_strong` (used by the C1 theorem). -/
theorem very_strong_composition (g : Nat → Nat) (L : Nat) (ea : Bool) (hL : 8 ≤ L) :
    (generate_very_strong g L ea).length = L ∧
    (∀ c ∈ generate_very_strong g L ea, c ∈ permitted_full) ∧
    2 ≤ class_count (generate_very_strong g L ea) UPPERCASE ∧
    2 ≤ class_count (generate_very_strong g L ea) LOWERCASE ∧
    2 ≤ class_count (generate_very_strong g L ea) DIGITS ∧
    2 ≤ class_count (generate_very_strong g L ea) SPECIAL ∧
    (ea = true → ambiguous_count (generate_very_strong g L ea) ≤ 8) := by
  have hdef : generate_very_strong g L ea =
      shuffle_list (fun i => g (8 + (L - 8) + i))
        ([choice UPPERCASE (g 0), choice UPPERCASE (g 1),
          choice LOWERCASE (g 2), choice LOWERCASE (g 3),
          choice DIGITS (g 4), choice DIGITS (g 5),
          choice SPECIAL (g 6), choice SPECIAL (g 7)] ++
         (List.range (L - 8)).map
           (fun i => choice (if ea then remove_ambiguous permitted_full
             else permitted_full) (g (8 + i)))) := rfl
  rw [hdef]
  have hne : (if ea then remove_ambiguous permitted_full else permitted_full) ≠ [] := by
    cases ea <;> decide
  obtain ⟨hlen, hmem, hcount, hamb⟩ :=
    gen_core (fun i => g (8 + (L - 8) + i)) _ _ permitted_full ea (fill_mem hne _ _)
  have hpair : ∀ (k₁ k₂ : Nat) (cls : List Char), cls ≠ [] →
      class_count [choice cls k₁, choice cls k₂] cls = 2 := by
    intro k₁ k₂ cls hcls
    exact class_count_pair (choice_mem hcls _) (choice_mem hcls _)
  refine ⟨?_, ?_, ?_, ?_, ?_, ?_, fun hea => ?_⟩
  · rw [hlen]; simp; omega
  · intro c hc
    rcases hmem c hc with h | h
    · rcases (by simpa using h : c = choice UPPERCASE (g 0) ∨
        c = choice UPPERCASE (g 1) ∨ c = choice LOWERCASE (g 2) ∨
        c = choice LOWERCASE (g 3) ∨ c = choice DIGITS (g 4) ∨
        c = choice DIGITS (g 5) ∨ c = choice SPECIAL (g 6) ∨
        c = choice SPECIAL (g 7)) with rfl | rfl | rfl | rfl | rfl | rfl | rfl | rfl
      · exact mem_permitted_full (Or.inr (Or.inl (choice_mem (by decide) _)))
      · exact mem_permitted_full (Or.inr (Or.inl (choice_mem (by decide) _)))
      · exact mem_permitted_full (Or.inl (choice_mem (by decide) _))
      · exact mem_permitted_full (Or.inl (choice_mem (by decide) _))
      · exact mem_permitted_full (Or.inr (Or.inr (Or.inl (choice_mem (by decide) _))))
      · exact mem_permitted_full (Or.inr (Or.inr (Or.inl (choice_mem (by decide) _))))
      · exact mem_permitted_full (Or.inr (Or.inr (Or.inr (choice_mem (by decide) _))))
      · exact mem_permitted_full (Or.inr (Or.inr (Or.inr (choice_mem (by decide) _))))
    · exact h
  · refine le_trans ?_ (hcount UPPERCASE)
    have : ([choice UPPERCASE (g 0), choice UPPERCASE (g 1),
        choice LOWERCASE (g 2), choice LOWERCASE (g 3),
        choice DIGITS (g 4), choice DIGITS (g 5),
        choice SPECIAL (g 6), choice SPECIAL (g 7)] : List Char) =
        [choice UPPERCASE (g 0), choice UPPERCASE (g 1)] ++
        [choice LOWERCASE (g 2), choice LOWERCASE (g 3),
         choice DIGITS (g 4), choice DIGITS (g 5),
         choice SPECIAL (g 6), choice SPECIAL (g 7)] := rfl
    rw [this, class_count_append, hpair _ _ UPPERCASE (by decide)]
    exact Nat.le_add_right _ _
  · refine le_trans ?_ (hcount LOWERCASE)
    have : ([choice UPPERCASE (g 0), choice UPPERCASE (g 1),
        choice LOWERCASE (g 2), choice LOWERCASE (g 3),
        choice DIGITS (g 4), choice DIGITS (g 5),
        choice SPECIAL (g 6), choice SPECIAL (g 7)] : List Char) =
        ([choice UPPERCASE (g 0), choice UPPERCASE (g 1)] ++
         [choice LOWERCASE (g 2), choice LOWERCASE (g 3)]) ++
        [choice DIGITS (g 4), choice DIGITS (g 5),
         choice SPECIAL (g 6), choice SPECIAL (g 7)] := rfl
    rw [this, class_count_append, class_count_append,
      hpair _ _ LOWERCASE (by decide)]
    omega
  · refine le_trans ?_ (hcount DIGITS)
    have : ([choice UPPERCASE (g 0), choice UPPERCASE (g 1),
        choice LOWERCASE (g 2), choice LOWERCASE (g 3),
        choice DIGITS (g 4), choice DIGITS (g 5),
        choice SPECIAL (g 6), choice SPECIAL (g 7)] : List Char) =
        ([choice UPPERCASE (g 0), choice UPPERCASE (g 1),
          choice LOWERCASE (g 2), choice LOWERCASE (g 3)] ++
         [choice DIGITS (g 4), choice DIGITS (g 5)]) ++
        [choice SPECIAL (g 6), choice SPECIAL (g 7)] := rfl
    rw [this, class_count_append, class_count_append,
      hpair _ _ DIGITS (by decide)]
    omega
  · refine le_trans ?_ (hcount SPECIAL)
    have : ([choice UPPERCASE (g 0), choice UPPERCASE (g 1),
        choice LOWERCASE (g 2), choice LOWERCASE (g 3),
        choice DIGITS (g 4), choice DIGITS (g 5),
        choice SPECIAL (g 6), choice SPECIAL (g 7)] : List Char) =
        [choice UPPERCASE (g 0), choice UPPERCASE (g 1),
         choice LOWERCASE (g 2), choice LOWERCASE (g 3),
         choice DIGITS (g 4), choice DIGITS (g 5)] ++
        [choice SPECIAL (g 6), choice SPECIAL (g 7)] := rfl
    rw [this, class_count_append, hpair _ _ SPECIAL (by decide)]
    omega
  · simpa using hamb hea

/-! ### Claim theorems: C7, C2, C3 -/

/-- C7: for every input list of characters, the output of the generator's
shuffle (`_shuffle_list`) is a permutation of the input: it has the same
length and exactly the same multiset of characters (equal count for every
character), with nothing added, removed, or altered.  (The source shuffles a
copy, so in this pure embedding the input is unchanged by construction.) -/
theorem shuffle_list_is_permutation (g : Nat → Nat) (l : List Char) :
    List.Perm (shuffle_list g l) l ∧
    (shuffle_list g l).length = l.length ∧
    ∀ c : Char, (shuffle_list g l).count c = l.count c :=
  ⟨shuffle_list_perm g l, (shuffle_list_perm g l).length_eq,
    fun c => (shuffle_list_perm g l).count_eq c⟩

/-- C2: `generate_password` fails with the length-validation error for every
length below 8 — independently of the tier and of the `include_special`,
`exclude_ambiguous` and `readable` flags — and succeeds for length exactly 8
for every tier and flag combination. -/
theorem generate_password_length_validation :
    (∀ (g : Nat → Nat) (strength : PasswordStrength)
        (include_special exclude_ambiguous readable : Bool) (length : Nat),
      length < 8 →
        generate_password g length strength include_special exclude_ambiguous readable =
          .error "Password length must be at least 8 characters") ∧
    (∀ (g : Nat → Nat) (strength : PasswordStrength)
        (include_special exclude_ambiguous readable : Bool),
      ∃ pw, generate_password g 8 strength include_special exclude_ambiguous readable =
        .ok pw) := by
  constructor
  · intro g strength is ea r length h
    simp [generate_password, h]
  · intro g strength is ea r
    exact ⟨_, rfl⟩

/-- Witness for C2 at a concrete policy: length 7 is rejected with the
validation error and length 8 is accepted. -/
theorem generate_password_length_validation_witness :
    generate_password (fun _ => 0) 7 .STRONG true true false =
      .error "Password length must be at least 8 characters" ∧
    ∃ pw, generate_password (fun _ => 0) 8 .STRONG true true false = .ok pw :=
  ⟨generate_password_length_validation.1 (fun _ => 0) .STRONG true true false 7
      (by decide),
    generate_password_length_validation.2 (fun _ => 0) .STRONG true true false⟩

/-- C1 counterexample: the claim that every character of a generated password
is drawn from the permitted classes minus the excluded ambiguous characters
fails — with `exclude_ambiguous` set, a MEDIUM policy of length 8 can still
produce the ambiguous character `O`, because the guaranteed required
characters are drawn from the full class sets before ambiguity filtering. -/
theorem generate_medium_ambiguous_counterexample :
    ¬ (∀ c ∈ generate_medium (fun _ => 14) 8 true true, ¬ c ∈ AMBIGUOUS) := by
  decide

/-- C1 (amended): for every policy with length `L ≥ 8` and tier MEDIUM,
STRONG or VERY_STRONG, the generator returns exactly `L` characters drawn
only from the policy's permitted classes, where ambiguous-character
exclusion narrows only the fill pool (at most the guaranteed required
characters — 4 for MEDIUM with special, 3 without, 4 for STRONG, 8 for
VERY_STRONG — can be ambiguous when `exclude_ambiguous` is set), and the
result contains at least one character from each required class for MEDIUM
(uppercase, lowercase, digit, plus special when `include_special`) and
STRONG (all four classes), and at least two from each of the four classes
for VERY_STRONG. -/
theorem generate_composition_invariants (g : Nat → Nat) (L : Nat) (is ea : Bool)
    (hL : 8 ≤ L) :
    ((generate_medium g L is ea).length = L ∧
     (∀ c ∈ generate_medium g L is ea, c ∈ permitted_medium is) ∧
     1 ≤ class_count (generate_medium g L is ea) UPPERCASE ∧
     1 ≤ class_count (generate_medium g L is ea) LOWERCASE ∧
     1 ≤ class_count (generate_medium g L is ea) DIGITS ∧
     (is = true → 1 ≤ class_count (generate_medium g L is ea) SPECIAL) ∧
     (ea = true →
       ambiguous_count (generate_medium g L is ea) ≤ if is = true then 4 else 3)) ∧
    ((generate_strong g L is ea).length = L ∧
     (∀ c ∈ generate_strong g L is ea, c ∈ permitted_full) ∧
     1 ≤ class_count (generate_strong g L is ea) UPPERCASE ∧
     1 ≤ class_count (generate_strong g L is ea) LOWERCASE ∧
     1 ≤ class_count (generate_strong g L is ea) DIGITS ∧
     1 ≤ class_count (generate_strong g L is ea) SPECIAL ∧
     (ea = true → ambiguous_count (generate_strong g L is ea) ≤ 4)) ∧
    ((generate_very_strong g L ea).length = L ∧
     (∀ c ∈ generate_very_strong g L ea, c ∈ permitted_full) ∧
     2 ≤ class_count (generate_very_strong g L ea) UPPERCASE ∧
     2 ≤ class_count (generate_very_strong g L ea) LOWERCASE ∧
     2 ≤ class_count (generate_very_strong g L ea) DIGITS ∧
     2 ≤ class_count (generate_very_strong g L ea) SPECIAL ∧
     (ea = true → ambiguous_count (generate_very_strong g L ea) ≤ 8)) :=
  ⟨medium_composition g L is ea hL, strong_composition g L is ea hL,
    very_strong_composition g L ea hL⟩

/-- Witness for the amended C1 theorem at the concrete policy
`length = 8, include_special = true, exclude_ambiguous = true` and the
all-zero random oracle. -/
theorem generate_composition_invariants_witness :
    (generate_medium (fun _ => 0) 8 true true).length = 8 ∧
    (generate_strong (fun _ => 0) 8 true true).length = 8 ∧
    2 ≤ class_count (generate_very_strong (fun _ => 0) 8 true) UPPERCASE :=
  ⟨(generate_composition_invariants (fun _ => 0) 8 true true (by decide)).1.1,
   (generate_composition_invariants (fun _ => 0) 8 true true (by decide)).2.1.1,
   (generate_composition_invariants (fun _ => 0) 8 true true (by decide)).2.2.2.2.1⟩

/-- C3 counterexample: with all four classes enabled and no ambiguity
exclusion, `get_charset_size` does not return 94 (it returns 91, because the
source's special-character catalog has 29 characters, not 32). -/
theorem get_charset_size_not_94 :
    ¬ get_charset_size true true true true false = 94 := by decide

/-- C3 (amended): for every combination of the four class flags with
`exclude_ambiguous` false, `get_charset_size` returns the sum of 26
(uppercase), 26 (lowercase), 10 (digits) and 29 (special) over the enabled
classes; the special class contributes exactly 29 because the generator's
special catalog `SPECIAL` is a fixed 29-character string, and with all four
classes enabled the result is 91. -/
theorem get_charset_size_sums (u l d s : Bool) :
    get_charset_size u l d s false =
      (if u then (26 : Int) else 0) + (if l then (26 : Int) else 0) +
      (if d then (10 : Int) else 0) + (if s then (29 : Int) else 0) ∧
    SPECIAL.length = 29 ∧
    get_charset_size true true true true false = 91 := by
  refine ⟨?_, by decide, by decide⟩
  cases u <;> cases l <;> cases d <;> cases s <;> decide

/-! ### Embedding of `checker.py` (`PasswordChecker`)

External collaborators are modelled as oracles: `sim` stands for
`rapidfuzz.fuzz.token_set_ratio` (a similarity score in [0,100]), `fmt`
stands for Python's one-decimal float formatting used inside f-strings, and
`common` is the loaded common-password list.  Unicode classification
(`str.isupper` and friends) is modelled by the ASCII-range checks, matching
the fixed 26/26/10/32 class sizes the scoring uses. -/

namespace Checker

/-- Source constant `PasswordChecker.LOWERCASE` (class size for entropy). -/
def LOWERCASE : Nat := 26

/-- Source constant `PasswordChecker.UPPERCASE`. -/
def UPPERCASE : Nat := 26

/-- Source constant `PasswordChecker.DIGITS`. -/
def DIGITS : Nat := 10

/-- Source constant `PasswordChecker.SPECIAL` (class size for entropy). -/
def SPECIAL : Nat := 32

/-- Source constant `PasswordChecker.GUESSES_PER_SECOND`. -/
def GUESSES_PER_SECOND : Nat := 1000000000

/-- Source constant `PasswordChecker.SECONDS_PER_YEAR`. -/
def SECONDS_PER_YEAR : Nat := 31536000

/-- The 32-character class of the special-character regex used by
`_has_special_chars` and `_calculate_entropy`. -/
def special_chars_class : List Char :=
  "!@#$%^&*()_+-=[]\x7b\x7d;:\x27\x22,.<>?/\\|\x60~".toList

/-- Source `PasswordChecker._has_uppercase` (ASCII model of `isupper`). -/
def has_uppercase (p : List Char) : Bool := p.any (fun c => c.isUpper)

/-- Source `PasswordChecker._has_lowercase` (ASCII model of `islower`). -/
def has_lowercase (p : List Char) : Bool := p.any (fun c => c.isLower)

/-- Source `PasswordChecker._has_numbers` (ASCII model of `isdigit`). -/
def has_numbers (p : List Char) : Bool := p.any (fun c => c.isDigit)

/-- Source `PasswordChecker._has_special_chars`. -/
def has_special_chars (p : List Char) : Bool :=
  p.any (fun c => special_chars_class.contains c)

/-- Source `PasswordChecker._length_check` (boolean pass at 12). -/
def length_check (p : List Char) : Bool := decide (12 ≤ p.length)

/-- Source `PasswordChecker._check_length` (stepped 0/20/50/75/100 score). -/
def check_length (p : List Char) : ℚ :=
  if p.length < 6 then 0
  else if p.length < 8 then 20
  else if p.length < 12 then 50
  else if p.length < 16 then 75
  else 100

/-- The `diversity_count` accumulated by `_check_character_diversity`. -/
def diversity_count (p : List Char) : Nat :=
  (if has_uppercase p then 1 else 0) + (if has_lowercase p then 1 else 0) +
  (if has_numbers p then 1 else 0) + (if has_special_chars p then 1 else 0)

/-- Source `PasswordChecker._check_character_diversity`:
`(diversity_count / 4) * 100`. -/
def check_character_diversity (p : List Char) : ℚ :=
  (diversity_count p : ℚ) / 4 * 100

/-- Literal substring search, modelling `re.search` of a literal pattern and
Python's `in` on strings. -/
def contains_sub (pat : List Char) : List Char → Bool
  | [] => pat.isEmpty
  | c :: rest => pat.isPrefixOf (c :: rest) || contains_sub pat rest

/-- The literal alternatives of the five keyboard-walk regexes of
`_has_keyboard_pattern`, in source order. -/
def keyboard_patterns : List (List Char) :=
  (["qwert", "werty", "ertyu", "rtyui", "tyuio", "yuiop",
    "asdfg", "sdfgh", "dfghj", "fghjk", "ghjkl",
    "zxcvb", "xcvbn", "cvbnm",
    "12345", "23456", "34567", "45678", "56789", "67890",
    "!@#$%", "$%^&"]).map String.toList

/-- Source `PasswordChecker._has_keyboard_pattern` (search on the lowercased
password). -/
def has_keyboard_pattern (p : List Char) : Bool :=
  let pl := p.map Char.toLower
  keyboard_patterns.any (fun pat => contains_sub pat pl)

/-- Source `PasswordChecker._has_sequential_chars` (three strictly ascending
consecutive code points anywhere). -/
def has_sequential_chars : List Char → Bool
  | a :: b :: c :: rest =>
    (b.toNat == a.toNat + 1 && c.toNat == b.toNat + 1) ||
      has_sequential_chars (b :: c :: rest)
  | _ => false

/-- Source `PasswordChecker._has_repeated_chars` (some character occurs at
least three times). -/
def has_repeated_chars (p : List Char) : Bool :=
  p.any (fun c => decide (3 ≤ p.count c))

/-- The literal alternatives of the `_is_common_pattern` regexes (each regex
is a case-variant literal, with the optional `(word)?` group making
`[Pp]ass(word)?` equivalent to the substring `Pass`/`pass`). -/
def common_pattern_variants : List (List Char) :=
  (["Pass", "pass", "P@ssw0rd", "p@ssw0rd", "Qwerty", "qwerty",
    "Admin", "admin", "Letmein", "LetmeIn", "letmein", "letmeIn",
    "Welcome", "welcome", "Secure", "secure"]).map String.toList

/-- Source `PasswordChecker._is_common_pattern`. -/
def is_common_pattern (p : List Char) : Bool :=
  common_pattern_variants.any (fun pat => contains_sub pat p)

/-- Source `PasswordChecker._check_patterns`: start at 100, subtract the
four penalties, floor at 0. -/
def check_patterns (p : List Char) : ℚ :=
  max 0 (100 - (if has_keyboard_pattern p then 25 else 0)
    - (if has_sequential_chars p then 15 else 0)
    - (if has_repeated_chars p then 10 else 0)
    - (if is_common_pattern p then 20 else 0))

/-- Left-to-right non-overlapping replacement of the non-empty pattern
`p :: ps` by `rep`, modelling Python `str.replace`. -/
def py_replace_go (p : Char) (ps rep : List Char) : List Char → List Char
  | [] => []
  | c :: rest =>
    if c == p && ps.isPrefixOf rest then
      rep ++ py_replace_go p ps rep (rest.drop ps.length)
    else
      c :: py_replace_go p ps rep rest
termination_by l => l.length
decreasing_by
  · simp only [List.length_drop, List.length_cons]
    omega
  · simp only [List.length_cons]
    omega

/-- Python `str.replace(pat, rep)`.  All call sites in the source use a
non-empty pattern, so the empty-pattern case is modelled as the identity. -/
def py_replace (pat rep l : List Char) : List Char :=
  match pat with
  | [] => l
  | p :: ps => py_replace_go p ps rep l

/-- Source `leet_map` of `_normalize_leet_speak`, as the ordered key/value
list of the dict literal (insertion order). -/
def leet_table : List (List Char × List Char) :=
  ([("@", "a"), ("4", "a"), ("^", "a"), ("3", "e"), ("€", "e"), ("8", "b"),
    ("9", "g"), ("1", "i"), ("|", "i"), ("!", "i"), ("0", "o"), ("()", "o"),
    ("5", "s"), ("$", "s"), ("7", "t"), ("+", "t"), ("2", "z"), ("6", "g"),
    (".", ""), ("-", ""), ("_", ""), (" ", "")]).map
    (fun pr => (pr.1.toList, pr.2.toList))

/-- Source `PasswordChecker._normalize_leet_speak`: sequential
`str.replace` over the table in dict order. -/
def normalize_leet_speak (p : List Char) : List Char :=
  leet_table.foldl (fun acc pr => py_replace pr.1 pr.2 acc) p

/-- Source `common_words` list of `_check_dictionary`. -/
def common_words : List (List Char) :=
  (["password", "admin", "user", "welcome", "letmein", "monkey",
    "dragon", "master", "shadow", "sunshine", "starlight", "trustno1",
    "qwerty", "admin123", "pass123", "password123"]).map String.toList

/-- Source `PasswordChecker._check_dictionary`, with the fuzzy matcher
`fuzz.token_set_ratio` supplied as the oracle `sim` and the loaded
common-password set as the list `common` (iterated in list order). -/
def check_dictionary (sim : List Char → List Char → ℚ)
    (common : List (List Char)) (p : List Char) : ℚ :=
  let pl := p.map Char.toLower
  let norm := normalize_leet_speak pl
  if pl ∈ common ∨ norm ∈ common then 0
  else
    match common.find? (fun c => decide (85 ≤ sim norm c)) with
    | some c => max 0 (50 - (sim norm c - 85) * 4)
    | none =>
      match common_words.find? (fun w => decide (80 ≤ sim norm w)) with
      | some w => max 10 (60 - (sim norm w - 80) * (5 / 2))
      | none =>
        if common_words.any (fun w => decide (4 ≤ w.length) && contains_sub w norm)
        then 25 else 100

/-- Source `PasswordChecker._calculate_entropy`: class sizes 26/26/10/32 for
the classes detected in the password, then `length * log2(charset_size)`. -/
noncomputable def calculate_entropy (p : List Char) : ℝ :=
  let charset_size : Nat :=
    (if has_lowercase p then LOWERCASE else 0) +
    (if has_uppercase p then UPPERCASE else 0) +
    (if has_numbers p then DIGITS else 0) +
    (if has_special_chars p then SPECIAL else 0)
  if charset_size = 0 then 0
  else (p.length : ℝ) * Real.logb 2 (charset_size : ℝ)

open Classical in
/-- Source `PasswordChecker._entropy_to_score`. -/
noncomputable def entropy_to_score (e : ℝ) : ℚ :=
  if e < 30 then 10 else if e < 50 then 50 else if e < 70 then 75 else 100

open Classical in
/-- Source `PasswordChecker._calculate_time_to_crack`; `fmt` models the
one-decimal float rendering of the f-strings. -/
noncomputable def calculate_time_to_crack (fmt : ℝ → String) (entropy : ℝ) : String :=
  let total : ℝ := (2 : ℝ) ^ entropy
  let avg := total / 2
  let seconds := avg / (GUESSES_PER_SECOND : ℝ)
  if seconds < 1 then "Less than 1 second"
  else if seconds < 60 then fmt seconds ++ " seconds"
  else if seconds < 3600 then fmt (seconds / 60) ++ " minutes"
  else if seconds < 86400 then fmt (seconds / 3600) ++ " hours"
  else if seconds < (SECONDS_PER_YEAR : ℝ) then fmt (seconds / 86400) ++ " days"
  else
    let years := seconds / (SECONDS_PER_YEAR : ℝ)
    if 1000000 < years then "~" ++ fmt (years / 1000000) ++ " million years"
    else "~" ++ fmt years ++ " years"

/-- The `feedback` dictionary shape returned by `_generate_feedback`. -/
structure Feedback where
  positive : List String
  negative : List String
  suggestions : List String

/-- Source `PasswordChecker._generate_feedback` (append order preserved; the
`length_score` parameter exists in the source signature but its body reads
the password length directly). -/
def generate_feedback (p : List Char)
    (_length_score diversity_score pattern_score dictionary_score : ℚ) : Feedback :=
  let positive :=
    (if 16 ≤ p.length then ["Excellent length (16+ characters)"]
     else if 12 ≤ p.length then ["Good length (12+ characters)"] else []) ++
    (if diversity_score = 100 then ["Excellent character diversity (all types present)"]
     else if 75 ≤ diversity_score then ["Good character variety"] else []) ++
    (if pattern_score = 100 then ["No predictable patterns detected"] else []) ++
    (if dictionary_score = 100 then ["Not a common password"] else [])
  let negative :=
    (if p.length < 12 then ["Password too short (use 12+ characters)"] else []) ++
    (if !(has_uppercase p) then ["Missing uppercase letters"] else []) ++
    (if !(has_lowercase p) then ["Missing lowercase letters"] else []) ++
    (if !(has_numbers p) then ["Missing numbers"] else []) ++
    (if !(has_special_chars p) then ["Missing special characters"] else []) ++
    (if has_keyboard_pattern p then ["Contains keyboard walk pattern"] else []) ++
    (if dictionary_score < 100 then ["Password contains common words"] else [])
  let suggestions :=
    (if p.length < 12 then ["Increase password length to at least 12 characters"] else []) ++
    (if !(has_uppercase p) then ["Add uppercase letters (A-Z)"] else []) ++
    (if !(has_lowercase p) then ["Add lowercase letters (a-z)"] else []) ++
    (if !(has_numbers p) then ["Add numbers (0-9)"] else []) ++
    (if !(has_special_chars p) then ["Add special characters (!@#$%^&*)"] else []) ++
    (if has_keyboard_pattern p then ["Avoid keyboard patterns like qwerty or 12345"] else []) ++
    (if dictionary_score < 100 then ["Use random, uncommon words or phrases"] else []) ++
    (if positive.length = 0 then ["Consider using a password generator for a strong password"]
     else [])
  ⟨positive, negative, suggestions⟩

/-- The result dictionary shape of `check_password`. -/
structure CheckResult where
  password : String
  overall_strength : String
  score : Int
  entropy_bits : ℝ
  time_to_crack : String
  feedback : Feedback
  criteria : List (String × String)

/-- The fixed criteria key order of `_weak_result` and `check_password`. -/
def criteria_names : List String :=
  ["length", "uppercase", "lowercase", "numbers", "special_chars",
   "no_dictionary_words", "no_keyboard_patterns", "no_sequential_chars"]

/-- Source `PasswordChecker._weak_result`. -/
def weak_result (reason : String) : CheckResult :=
  { password := "***"
    overall_strength := "VERY WEAK"
    score := 0
    entropy_bits := 0
    time_to_crack := "Less than 1 second"
    feedback := ⟨[], [reason],
      ["Create a proper password with minimum 12 characters"]⟩
    criteria := criteria_names.map (fun k => (k, "FAIL")) }

/-- Python 3 `round` on an exact rational: round half to even. -/
def bankers_round (q : ℚ) : Int :=
  let f := ⌊q⌋
  let frac := q - (f : ℚ)
  if frac < 1 / 2 then f
  else if 1 / 2 < frac then f + 1
  else if f % 2 = 0 then f else f + 1

/-- Python `round(x, 2)` on a real (nearest value at two decimals). -/
noncomputable def py_round2 (x : ℝ) : ℝ := ((round (x * 100) : ℤ) : ℝ) / 100

open Classical in
/-- Source `PasswordChecker.check_password`. -/
noncomputable def check_password (sim : List Char → List Char → ℚ)
    (fmt : ℝ → String) (common : List (List Char))
    (password : List Char) : CheckResult :=
  if password = [] then weak_result "Password cannot be empty"
  else
    let length_score := check_length password
    let diversity_score := check_character_diversity password
    let entropy := calculate_entropy password
    let pattern_score := check_patterns password
    let dictionary_score := check_dictionary sim common password
    let overall_score : ℚ :=
      length_score * (1 / 4) + diversity_score * (1 / 4) +
      pattern_score * (1 / 5) + dictionary_score * (1 / 5) +
      entropy_to_score entropy * (1 / 10)
    let strength :=
      if 80 ≤ overall_score then "STRONG"
      else if 60 ≤ overall_score then "MEDIUM"
      else if 40 ≤ overall_score then "WEAK"
      else "VERY WEAK"
    { password := if 0 < password.length then "***" else ""
      overall_strength := strength
      score := bankers_round overall_score
      entropy_bits := py_round2 entropy
      time_to_crack := calculate_time_to_crack fmt entropy
      feedback := generate_feedback password length_score diversity_score
        pattern_score dictionary_score
      criteria := [
        ("length", if length_check password then "PASS" else "FAIL"),
        ("uppercase", if has_uppercase password then "PASS" else "FAIL"),
        ("lowercase", if has_lowercase password then "PASS" else "FAIL"),
        ("numbers", if has_numbers password then "PASS" else "FAIL"),
        ("special_chars", if has_special_chars password then "PASS" else "FAIL"),
        ("no_dictionary_words", if 50 < dictionary_score then "PASS" else "FAIL"),
        ("no_keyboard_patterns", if 70 < pattern_score then "PASS" else "FAIL"),
        ("no_sequential_chars",
          if !(has_sequential_chars password) then "PASS" else "FAIL")] }

end Checker

/-! ### Claim theorems: C6, C9, C8 -/

/-- C6: checking the empty password is not an error: it returns the fixed
deterministic weak verdict — strength tier VERY_WEAK (rendered by the source
as the string `VERY WEAK`), score 0, entropy_bits 0, the empty-password
message among the negative feedback, and all 8 named criteria FAIL — for
every similarity oracle, formatting oracle and dictionary. -/
theorem check_password_empty (sim : List Char → List Char → ℚ)
    (fmt : ℝ → String) (common : List (List Char)) :
    Checker.check_password sim fmt common [] =
      Checker.weak_result "Password cannot be empty" ∧
    (Checker.check_password sim fmt common []).overall_strength = "VERY WEAK" ∧
    (Checker.check_password sim fmt common []).score = 0 ∧
    (Checker.check_password sim fmt common []).entropy_bits = 0 ∧
    "Password cannot be empty" ∈
      (Checker.check_password sim fmt common []).feedback.negative ∧
    (Checker.check_password sim fmt common []).criteria =
      [("length", "FAIL"), ("uppercase", "FAIL"), ("lowercase", "FAIL"),
       ("numbers", "FAIL"), ("special_chars", "FAIL"),
       ("no_dictionary_words", "FAIL"), ("no_keyboard_patterns", "FAIL"),
       ("no_sequential_chars", "FAIL")] := by
  have h : Checker.check_password sim fmt common [] =
      Checker.weak_result "Password cannot be empty" := by
    simp [Checker.check_password]
  refine ⟨h, ?_, ?_, ?_, ?_, ?_⟩ <;>
    rw [h] <;> simp [Checker.weak_result, Checker.criteria_names]

/-- C9: for every non-empty password, the `password` field of the verdict is
the constant `***`; hence any two distinct non-empty passwords yield an
identical `password` field, and the raw password never flows into it. -/
theorem check_password_masks_password (sim : List Char → List Char → ℚ)
    (fmt : ℝ → String) (common : List (List Char)) (p q : List Char)
    (hp : p ≠ []) (hq : q ≠ []) :
    (Checker.check_password sim fmt common p).password = "***" ∧
    (Checker.check_password sim fmt common p).password =
      (Checker.check_password sim fmt common q).password := by
  have hmask : ∀ r : List Char, r ≠ [] →
      (Checker.check_password sim fmt common r).password = "***" := by
    intro r hr
    simp only [Checker.check_password, if_neg hr]
    simp [List.length_pos.mpr hr]
  exact ⟨hmask p hp, (hmask p hp).trans (hmask q hq).symm⟩

/-- Witness for C9 at two concrete distinct non-empty passwords. -/
theorem check_password_masks_password_witness :
    (Checker.check_password (fun _ _ => 0) (fun _ => "") [] ("abc".toList)).password
      = "***" ∧
    (Checker.check_password (fun _ _ => 0) (fun _ => "") [] ("abc".toList)).password =
      (Checker.check_password (fun _ _ => 0) (fun _ => "") [] ("xy".toList)).password :=
  check_password_masks_password (fun _ _ => 0) (fun _ => "") [] ("abc".toList)
    ("xy".toList) (by decide) (by decide)

/-- A character of one of the four classes that is missing from `p` (the
hypothesis shape of the C8 monotonicity claim). -/
def missing_class_char (p : List Char) (c : Char) : Prop :=
  (c.isUpper = true ∧ Checker.has_uppercase p = false) ∨
  (c.isLower = true ∧ Checker.has_lowercase p = false) ∨
  (c.isDigit = true ∧ Checker.has_numbers p = false) ∨
  (c ∈ Checker.special_chars_class ∧ Checker.has_special_chars p = false)

instance (p : List Char) (c : Char) : Decidable (missing_class_char p c) := by
  unfold missing_class_char
  infer_instance

/-- C8: appending characters of character classes missing from `p` never
decreases the diversity sub-score `_check_character_diversity` (in fact
appending any characters never decreases it). -/
theorem diversity_monotone (p s : List Char)
    (hs : ∀ c ∈ s, missing_class_char p c) :
    Checker.check_character_diversity p ≤
      Checker.check_character_diversity (p ++ s) := by
  clear hs
  have hcount : Checker.diversity_count p ≤ Checker.diversity_count (p ++ s) := by
    have hb : ∀ (a b : Bool), (if a then (1 : Nat) else 0) ≤ if (a || b) then 1 else 0 := by
      decide
    simp only [Checker.diversity_count, Checker.has_uppercase, Checker.has_lowercase,
      Checker.has_numbers, Checker.has_special_chars, List.any_append]
    exact Nat.add_le_add (Nat.add_le_add (Nat.add_le_add (hb _ _) (hb _ _)) (hb _ _))
      (hb _ _)
  have hq : (Checker.diversity_count p : ℚ) ≤ (Checker.diversity_count (p ++ s) : ℚ) :=
    Nat.cast_le.mpr hcount
  unfold Checker.check_character_diversity
  linarith

/-- Witness for C8: appending the uppercase character `B` (a class missing
from `a`) does not decrease the diversity sub-score. -/
theorem diversity_monotone_witness :
    Checker.check_character_diversity ("a".toList) ≤
      Checker.check_character_diversity ("a".toList ++ "B".toList) :=
  diversity_monotone ("a".toList) ("B".toList) (by decide)

/-! ### Claim theorem: C10 -/

theorem alpha_of_mem_letters {c : Char}
    (h : c ∈ consonants.map Char.toUpper ∨ c ∈ consonants ∨ c ∈ vowels) :
    c.isAlpha = true := by
  have h₁ : ∀ x ∈ consonants.map Char.toUpper, x.isAlpha = true := by decide
  have h₂ : ∀ x ∈ consonants, x.isAlpha = true := by decide
  have h₃ : ∀ x ∈ vowels, x.isAlpha = true := by decide
  rcases h with h | h | h
  · exact h₁ c h
  · exact h₂ c h
  · exact h₃ c h

theorem readable_letter_alpha (g : Nat → Nat) (i : Nat) :
    (readable_letter g i).isAlpha = true := by
  unfold readable_letter
  split_ifs with h1 h2
  · exact alpha_of_mem_letters (Or.inl (choice_mem (by decide) _))
  · exact alpha_of_mem_letters (Or.inr (Or.inl (choice_mem (by decide) _)))
  · exact alpha_of_mem_letters (Or.inr (Or.inr (choice_mem (by decide) _)))

/-- C10: in readable mode with `include_special` and length at least 12, the
two overwrite indices are drawn with `randbelow(length - 2)` and therefore
lie in `[0, length - 3]`; consequently the last two characters of the
generated password are always the letters produced by the consonant/vowel
alternation — never the injected digit or special character. -/
theorem readable_last_two_letters (g : Nat → Nat) (L : Nat) (hL : 12 ≤ L) :
    (generate_readable_password g L true).length = L ∧
    g L % (L - 2) ≤ L - 3 ∧ g (L + 1) % (L - 2) ≤ L - 3 ∧
    (generate_readable_password g L true)[L - 2]? =
      some (readable_letter g (L - 2)) ∧
    (generate_readable_password g L true)[L - 1]? =
      some (readable_letter g (L - 1)) ∧
    (readable_letter g (L - 2)).isAlpha = true ∧
    (readable_letter g (L - 1)).isAlpha = true := by
  have hpos : 0 < L - 2 := by omega
  have h1 : g L % (L - 2) < L - 2 := Nat.mod_lt _ hpos
  have h2 : g (L + 1) % (L - 2) < L - 2 := Nat.mod_lt _ hpos
  have hdef : generate_readable_password g L true =
      (((List.range L).map (readable_letter g)).set (g L % (L - 2))
        (choice DIGITS (g (L + 2)))).set (g (L + 1) % (L - 2))
        (choice SPECIAL (g (L + 3))) := by
    unfold generate_readable_password
    rw [if_pos ⟨rfl, hL⟩]
  have hbase : ∀ k, k < L →
      ((List.range L).map (readable_letter g))[k]? = some (readable_letter g k) := by
    intro k hk
    rw [List.getElem?_map, List.getElem?_range hk]
    rfl
  refine ⟨?_, by omega, by omega, ?_, ?_, readable_letter_alpha g _,
    readable_letter_alpha g _⟩
  · rw [hdef]; simp
  · rw [hdef, List.getElem?_set_ne (by omega), List.getElem?_set_ne (by omega)]
    exact hbase (L - 2) (by omega)
  · rw [hdef, List.getElem?_set_ne (by omega), List.getElem?_set_ne (by omega)]
    exact hbase (L - 1) (by omega)

/-- Witness for C10 at the concrete readable policy of length 12 with the
all-zero oracle. -/
theorem readable_last_two_letters_witness :
    (generate_readable_password (fun _ => 0) 12 true).length = 12 ∧
    (generate_readable_password (fun _ => 0) 12 true)[10]? =
      some (readable_letter (fun _ => 0) 10) ∧
    (readable_letter (fun _ => 0) 10).isAlpha = true :=
  ⟨(readable_last_two_letters (fun _ => 0) 12 (by decide)).1,
   (readable_last_two_letters (fun _ => 0) 12 (by decide)).2.2.2.1,
   (readable_last_two_letters (fun _ => 0) 12 (by decide)).2.2.2.2.2.1⟩

/-! ### Claim theorems: C4 (entropy round-trip) -/

/-- The generator-side charset size for the character classes detected in a
password (the claim's `charset_size_of(p)`): `get_charset_size` with exactly
the detected classes enabled and `exclude_ambiguous` false. -/
def detected_charset_size (p : List Char) : Int :=
  get_charset_size (Checker.has_uppercase p) (Checker.has_lowercase p)
    (Checker.has_numbers p) (Checker.has_special_chars p) false

/-- The generator-side entropy of the claim's round-trip:
`calculate_entropy(len(p), charset_size_of(p))`. -/
noncomputable def generator_entropy_of (p : List Char) : ℝ :=
  calculate_entropy p.length (detected_charset_size p)

/-- C4 counterexample: the entropy round-trip fails on the one-character
password `!` — the generator side uses its 29-character special catalog
(charset 29) while the checker uses the fixed class size 32, and
`log2 29 ≠ log2 32`. -/
theorem entropy_round_trip_fails :
    generator_entropy_of ("!".toList) ≠ Checker.calculate_entropy ("!".toList) := by
  have hsize : detected_charset_size ("!".toList) = 29 := by decide
  have hL : generator_entropy_of ("!".toList) = Real.logb 2 29 := by
    rw [generator_entropy_of, hsize, calculate_entropy]
    norm_num
  have hu : Checker.has_uppercase ['!'] = false := by decide
  have hl : Checker.has_lowercase ['!'] = false := by decide
  have hn : Checker.has_numbers ['!'] = false := by decide
  have hx : Checker.has_special_chars ['!'] = true := by decide
  have hR : Checker.calculate_entropy ("!".toList) = Real.logb 2 32 := by
    rw [Checker.calculate_entropy]
    simp [hu, hl, hn, hx, Checker.LOWERCASE, Checker.UPPERCASE, Checker.DIGITS,
      Checker.SPECIAL]
  rw [hL, hR]
  exact ne_of_lt (Real.logb_lt_logb (by norm_num) (by norm_num) (by norm_num))

theorem entropy_eq_of_size (len : Nat) (v : Nat) (hv : 2 ≤ v) :
    calculate_entropy len (v : Int) = (len : ℝ) * Real.logb 2 (v : ℝ) := by
  rcases Nat.eq_zero_or_pos len with h0 | h0
  · subst h0
    simp [calculate_entropy]
  · rw [calculate_entropy, if_neg]
    · norm_num
    · push_neg
      constructor
      · exact_mod_cast by omega
      · omega

/-- C4 (amended): the entropy round-trip
`calculate_entropy(len(p), charset_size_of(p)) = entropy inside check(p)`
holds exactly for passwords in which no special-class character is detected;
with a special character present the two sides differ (29 vs 32 for the
special-class contribution), as the counterexample shows. -/
theorem entropy_round_trip_no_special (p : List Char)
    (h : Checker.has_special_chars p = false) :
    generator_entropy_of p = Checker.calculate_entropy p := by
  rw [generator_entropy_of, Checker.calculate_entropy, detected_charset_size,
    get_charset_size]
  cases hu : Checker.has_uppercase p <;> cases hl : Checker.has_lowercase p <;>
    cases hn : Checker.has_numbers p <;>
    simp only [h, Bool.false_eq_true, if_false, if_true,
      Checker.LOWERCASE, Checker.UPPERCASE, Checker.DIGITS, Checker.SPECIAL] <;>
    norm_num
  · simp [calculate_entropy]
  · exact entropy_eq_of_size p.length 10 (by norm_num)
  · exact entropy_eq_of_size p.length 26 (by norm_num)
  · exact entropy_eq_of_size p.length 36 (by norm_num)
  · exact entropy_eq_of_size p.length 26 (by norm_num)
  · exact entropy_eq_of_size p.length 36 (by norm_num)
  · exact entropy_eq_of_size p.length 52 (by norm_num)
  · exact entropy_eq_of_size p.length 62 (by norm_num)

/-- Witness for the amended C4 theorem on the concrete special-free password
`Ab1`. -/
theorem entropy_round_trip_no_special_witness :
    generator_entropy_of ("Ab1".toList) = Checker.calculate_entropy ("Ab1".toList) :=
  entropy_round_trip_no_special ("Ab1".toList) (by decide)

/-! ### Claim theorems: C5 (leet-speak normalization)

The claim describes the substitution table in its own declared order; the
definitions prefixed `spec_` and `amended_` transcribe the claim's table (a
refinement comparison against the source's `normalize_leet_speak`). -/

namespace Checker

/-- The substitution table exactly as the claim declares it:
`@/4/^→a, 3/€→e, 8→b, 9/6→g, 1/|/!→i, 0→o, 5/$→s, 7/+→t, 2→z`, then
deletion of `.`, `-`, `_` and space — and nothing else. -/
def spec_leet_table : List (List Char × List Char) :=
  ([("@", "a"), ("4", "a"), ("^", "a"), ("3", "e"), ("€", "e"), ("8", "b"),
    ("9", "g"), ("6", "g"), ("1", "i"), ("|", "i"), ("!", "i"), ("0", "o"),
    ("5", "s"), ("$", "s"), ("7", "t"), ("+", "t"), ("2", "z"),
    (".", ""), ("-", ""), ("_", ""), (" ", "")]).map
    (fun pr => (pr.1.toList, pr.2.toList))

/-- Sequential replacement over the claim's declared table. -/
def spec_normalize (p : List Char) : List Char :=
  spec_leet_table.foldl (fun acc pr => py_replace pr.1 pr.2 acc) p

/-- The claim's table amended by the one rule the counterexample forces: the
two-character substitution `() → o` (present in the source's dict between
`0 → o` and `5 → s`). -/
def amended_leet_table : List (List Char × List Char) :=
  ([("@", "a"), ("4", "a"), ("^", "a"), ("3", "e"), ("€", "e"), ("8", "b"),
    ("9", "g"), ("6", "g"), ("1", "i"), ("|", "i"), ("!", "i"), ("0", "o"),
    ("()", "o"), ("5", "s"), ("$", "s"), ("7", "t"), ("+", "t"), ("2", "z"),
    (".", ""), ("-", ""), ("_", ""), (" ", "")]).map
    (fun pr => (pr.1.toList, pr.2.toList))

/-- Sequential replacement over the amended table, in the claim's declared
order. -/
def amended_normalize (p : List Char) : List Char :=
  amended_leet_table.foldl (fun acc pr => py_replace pr.1 pr.2 acc) p

theorem py_go_single (a b : Char) (l : List Char) :
    py_replace_go a [] [b] l = l.map (fun c => if c = a then b else c) := by
  induction l with
  | nil => simp [py_replace_go]
  | cons c rest ih =>
    rw [py_replace_go]
    by_cases hc : c = a
    · simp [hc, ih, List.isPrefixOf]
    · simp [hc, ih, List.isPrefixOf]

theorem py_go_del (a : Char) (l : List Char) :
    py_replace_go a [] [] l = l.filter (fun c => !(c == a)) := by
  induction l with
  | nil => simp [py_replace_go]
  | cons c rest ih =>
    rw [py_replace_go]
    by_cases hc : c = a
    · simp [hc, ih, List.isPrefixOf]
    · simp [hc, ih, List.isPrefixOf]

theorem map_swap (a b c d : Char) (hac : a ≠ c) (hbc : b ≠ c) (hda : d ≠ a)
    (l : List Char) :
    (l.map (fun x => if x = c then d else x)).map (fun x => if x = a then b else x) =
    (l.map (fun x => if x = a then b else x)).map (fun x => if x = c then d else x) := by
  simp only [List.map_map]
  have hfun : ((fun x => if x = a then b else x) ∘ (fun x => if x = c then d else x)) =
      ((fun x => if x = c then d else x) ∘ (fun x => if x = a then b else x)) := by
    funext x
    simp only [Function.comp_apply]
    by_cases hxc : x = c
    · by_cases hxa : x = a
      · exact absurd (hxa.symm.trans hxc) hac
      · subst hxc
        simp [hxa, hda]
    · by_cases hxa : x = a
      · subst hxa
        simp [hxc, hbc]
      · simp [hxc, hxa]
  rw [hfun]

theorem paren_map6_comm : ∀ l : List Char,
    py_replace_go '(' [')'] ['o'] (l.map (fun x => if x = '6' then 'g' else x)) =
    (py_replace_go '(' [')'] ['o'] l).map (fun x => if x = '6' then 'g' else x)
  | [] => by simp [py_replace_go]
  | [c] => by
    by_cases hc : c = '6' <;> simp [py_replace_go, hc, List.isPrefixOf]
  | c :: r :: rest => by
    have hrec := paren_map6_comm rest
    have hrec2 := paren_map6_comm (r :: rest)
    simp only [List.map_cons]
    by_cases hc : c = '('
    · subst hc
      rw [if_neg (by decide)]
      by_cases hr : r = ')'
      · subst hr
        rw [if_neg (by decide)]
        have hC1 : (('(' == '(') && List.isPrefixOf [')']
            ((')' : Char) :: List.map (fun x => if x = '6' then 'g' else x) rest))
            = true := by
          simp [List.isPrefixOf]
        have hC2 : (('(' == '(') && List.isPrefixOf [')'] ((')' : Char) :: rest))
            = true := by
          simp [List.isPrefixOf]
        rw [py_replace_go, if_pos hC1]
        conv_rhs => rw [py_replace_go, if_pos hC2]
        simp only [List.length_cons, List.length_nil, List.drop_succ_cons,
          List.drop_zero, List.singleton_append, List.map_cons]
        rw [if_neg (by decide)]
        exact congrArg _ hrec
      · have hfr : (if r = '6' then 'g' else r) ≠ ')' := by
          by_cases h6 : r = '6'
          · subst h6; decide
          · simpa [h6] using hr
        have hC1 : ¬ ((('(' == '(') && List.isPrefixOf [')']
            ((if r = '6' then 'g' else r) ::
              List.map (fun x => if x = '6' then 'g' else x) rest)) = true) := by
          simp [List.isPrefixOf]
          exact fun h => hfr h.symm
        have hC2 : ¬ ((('(' == '(') && List.isPrefixOf [')'] (r :: rest)) = true) := by
          simp [List.isPrefixOf]
          exact fun h => hr h.symm
        rw [py_replace_go, if_neg hC1]
        conv_rhs => rw [py_replace_go, if_neg hC2]
        have h2 := hrec2
        simp only [List.map_cons] at h2
        rw [h2, List.map_cons]
        rw [if_neg (by decide)]
    · have hfc : (if c = '6' then 'g' else c) ≠ '(' := by
        by_cases h6 : c = '6'
        · subst h6; decide
        · simpa [h6] using hc
      have hC1 : ¬ (((if c = '6' then 'g' else c) == '(' && List.isPrefixOf [')']
          ((if r = '6' then 'g' else r) ::
            List.map (fun x => if x = '6' then 'g' else x) rest)) = true) := by
        simp [hfc]
      have hC2 : ¬ ((c == '(' && List.isPrefixOf [')'] (r :: rest)) = true) := by
        simp [hc]
      rw [py_replace_go, if_neg hC1]
      conv_rhs => rw [py_replace_go, if_neg hC2]
      have h2 := hrec2
      simp only [List.map_cons] at h2
      rw [h2, List.map_cons]
termination_by l => l.length

theorem leet_table_eq : leet_table =
    [(['@'], ['a']), (['4'], ['a']), (['^'], ['a']), (['3'], ['e']),
     (['€'], ['e']), (['8'], ['b']), (['9'], ['g']), (['1'], ['i']),
     (['|'], ['i']), (['!'], ['i']), (['0'], ['o']), (['(', ')'], ['o']),
     (['5'], ['s']), (['$'], ['s']), (['7'], ['t']), (['+'], ['t']),
     (['2'], ['z']), (['6'], ['g']), (['.'], []), (['-'], []), (['_'], []),
     ([' '], [])] := rfl

theorem spec_leet_table_eq : spec_leet_table =
    [(['@'], ['a']), (['4'], ['a']), (['^'], ['a']), (['3'], ['e']),
     (['€'], ['e']), (['8'], ['b']), (['9'], ['g']), (['6'], ['g']),
     (['1'], ['i']), (['|'], ['i']), (['!'], ['i']), (['0'], ['o']),
     (['5'], ['s']), (['$'], ['s']), (['7'], ['t']), (['+'], ['t']),
     (['2'], ['z']), (['.'], []), (['-'], []), (['_'], []), ([' '], [])] := rfl

theorem amended_leet_table_eq : amended_leet_table =
    [(['@'], ['a']), (['4'], ['a']), (['^'], ['a']), (['3'], ['e']),
     (['€'], ['e']), (['8'], ['b']), (['9'], ['g']), (['6'], ['g']),
     (['1'], ['i']), (['|'], ['i']), (['!'], ['i']), (['0'], ['o']),
     (['(', ')'], ['o']), (['5'], ['s']), (['$'], ['s']), (['7'], ['t']),
     (['+'], ['t']), (['2'], ['z']), (['.'], []), (['-'], []), (['_'], []),
     ([' '], [])] := rfl

end Checker

/-- C5 counterexample: on the input `()` the source's `_normalize_leet_speak`
returns `o` (its table has an extra two-character rule `() → o`), while the
claim's declared table leaves `()` unchanged. -/
theorem normalize_leet_speak_counterexample :
    Checker.normalize_leet_speak ['(', ')'] ≠ Checker.spec_normalize ['(', ')'] := by
  have hcode : Checker.normalize_leet_speak ['(', ')'] = ['o'] := by
    simp only [Checker.normalize_leet_speak, Checker.leet_table_eq,
      List.foldl_cons, List.foldl_nil, Checker.py_replace,
      Checker.py_go_single, Checker.py_go_del]
    simp [Checker.py_replace_go, List.isPrefixOf]
  have hspec : Checker.spec_normalize ['(', ')'] = ['(', ')'] := by
    simp only [Checker.spec_normalize, Checker.spec_leet_table_eq,
      List.foldl_cons, List.foldl_nil, Checker.py_replace,
      Checker.py_go_single, Checker.py_go_del]
    simp
  rw [hcode, hspec]
  decide

/-- C5 (amended): `_normalize_leet_speak` equals, on every input, the claim's
substitution table applied in its declared order once that table is extended
by the single two-character rule `() → o` (placed with the `0 → o` rule); no
other substitution is performed. -/
theorem normalize_leet_speak_is_amended_table (p : List Char) :
    Checker.normalize_leet_speak p = Checker.amended_normalize p := by
  simp only [Checker.normalize_leet_speak, Checker.amended_normalize,
    Checker.leet_table_eq, Checker.amended_leet_table_eq,
    List.foldl_cons, List.foldl_nil, Checker.py_replace,
    Checker.py_go_single, Checker.py_go_del]
  rw [Checker.map_swap '6' 'g' '2' 'z' (by decide) (by decide) (by decide),
    Checker.map_swap '6' 'g' '+' 't' (by decide) (by decide) (by decide),
    Checker.map_swap '6' 'g' '7' 't' (by decide) (by decide) (by decide),
    Checker.map_swap '6' 'g' '$' 's' (by decide) (by decide) (by decide),
    Checker.map_swap '6' 'g' '5' 's' (by decide) (by decide) (by decide),
    ← Checker.paren_map6_comm,
    Checker.map_swap '6' 'g' '0' 'o' (by decide) (by decide) (by decide),
    Checker.map_swap '6' 'g' '!' 'i' (by decide) (by decide) (by decide),
    Checker.map_swap '6' 'g' '|' 'i' (by decide) (by decide) (by decide),
    Checker.map_swap '6' 'g' '1' 'i' (by decide) (by decide) (by decide)]

end PasswordTool
